import Mathlib

/-!
Shallow embedding of the dropi-order-status-service core
(status-transition detection, pagination, retry, response
classification, orchestration) together with proofs of the
behavioural claims stated about it.

Go slices become Lean lists, Go errors become `Except`,
machine integers become `Int`/`Nat` (no overflow is reachable
on the embedded paths), and the effectful loops become
explicit state-passing recursion driven by oracles for the
context signal, the upstream pages and the webhook outcomes.
-/

/-! ## Data model (internal/models/serviceresponse/types.go)

Only the fields read by the embedded operations are carried:
`ID`, `Status`, `OrderDetails` (for `GetProductNames`) and
`History`.  The remaining fields of `DropiOrder` are
pass-through payload for the webhook body and are never
inspected by the code under verification. -/

structure Product where
  id : Int
  idLista : Int
  name : String
  nameInOrder : String
deriving Repr, DecidableEq, Inhabited

structure OrderDetail where
  id : Int
  orderID : Int
  price : String
  product : Product
deriving Repr, DecidableEq, Inhabited

structure HistoryItem where
  id : Int
  orderID : Int
  status : String
  createdAt : String
deriving Repr, DecidableEq, Inhabited

structure DropiOrder where
  id : Int
  status : String
  orderDetails : List OrderDetail
  history : List HistoryItem
deriving Repr, DecidableEq, Inhabited

/-- GetProductNames (types.go): collects the non-empty product
names of the order's line items, in order. -/
def DropiOrder.GetProductNames (order : DropiOrder) : List String :=
  if order.orderDetails.length = 0 then []
  else (order.orderDetails.filter (fun d => d.product.name != "")).map
    (fun d => d.product.name)

/-- DropiAPIResponse (types.go). -/
structure DropiAPIResponse where
  objects : List DropiOrder
  count : Int
  next : String
deriving Repr, DecidableEq, Inhabited

/-! ## TransitionDetector (internal/compare/compare.go) -/

namespace Compare

/-- Result (compare.go). -/
structure Result where
  changed : Bool
  oldStatus : String
  newStatus : String
  orderID : Int
  productNames : List String
  historySize : Nat
deriving Repr, DecidableEq, Inhabited

/-- CompareOrderStatus (compare.go): the Go pointer argument is
an `Option`; errors are returned as `Except.error` with the
message produced by `errors.New`. -/
def CompareOrderStatus (order : Option DropiOrder) : Except String Result :=
  match order with
  | none => .error "order is nil"
  | some o =>
    let hSize := o.history.length
    if hSize = 0 then
      .error "history is empty"
    else
      let last := o.history.getD (hSize - 1) default
      if hSize = 1 then
        .ok { changed := true
              oldStatus := ""
              newStatus := last.status
              orderID := o.id
              productNames := o.GetProductNames
              historySize := hSize }
      else
        let prev := o.history.getD (hSize - 2) default
        .ok { changed := last.status != prev.status
              oldStatus := prev.status
              newStatus := last.status
              orderID := o.id
              productNames := o.GetProductNames
              historySize := hSize }

end Compare

/-! ## Concrete sample inputs used by witnesses -/

def histEntry (st : String) : HistoryItem :=
  { id := 1, orderID := 7, status := st, createdAt := "2024-01-01" }

def orderOneHist : DropiOrder :=
  { id := 7, status := "GUIA_GENERADA", orderDetails := [],
    history := [histEntry "GUIA_GENERADA"] }

def orderTwoHist : DropiOrder :=
  { id := 9, status := "ENTREGADO", orderDetails := [],
    history := [histEntry "GUIA_GENERADA", histEntry "ENTREGADO"] }

/-- C1: for every non-nil order with non-empty history,
`CompareOrderStatus` succeeds; a singleton history yields the
synthetic first-time change (`changed = true`, empty previous
status, new status of the only entry) and a history of length
at least two yields `changed = (last ≠ second-to-last)` with
the last two statuses reported in order. -/
theorem C1_compareOrderStatus (o : DropiOrder) (hne : o.history ≠ []) :
    (∃ r, Compare.CompareOrderStatus (some o) = .ok r) ∧
    (∀ e, o.history = [e] →
      Compare.CompareOrderStatus (some o) =
        .ok { changed := true, oldStatus := "", newStatus := e.status,
              orderID := o.id, productNames := o.GetProductNames,
              historySize := 1 }) ∧
    (2 ≤ o.history.length →
      Compare.CompareOrderStatus (some o) =
        .ok { changed := ((o.history.getD (o.history.length - 1) default).status
                != (o.history.getD (o.history.length - 2) default).status),
              oldStatus := (o.history.getD (o.history.length - 2) default).status,
              newStatus := (o.history.getD (o.history.length - 1) default).status,
              orderID := o.id, productNames := o.GetProductNames,
              historySize := o.history.length }) := by
  have hlen : o.history.length ≠ 0 := by
    simpa [List.length_eq_zero] using hne
  refine ⟨?_, ?_, ?_⟩
  · unfold Compare.CompareOrderStatus
    by_cases h1 : o.history.length = 1 <;> simp [hlen, h1]
  · intro e he
    unfold Compare.CompareOrderStatus
    simp [he]
  · intro h2
    have h1 : o.history.length ≠ 1 := by omega
    unfold Compare.CompareOrderStatus
    simp [hlen, h1]

/-- C1 witness: the theorem applied to concrete one-entry and
two-entry orders. -/
theorem C1_compareOrderStatus_witness :
    Compare.CompareOrderStatus (some orderOneHist) =
      .ok { changed := true, oldStatus := "", newStatus := "GUIA_GENERADA",
            orderID := 7, productNames := [], historySize := 1 } ∧
    Compare.CompareOrderStatus (some orderTwoHist) =
      .ok { changed := true, oldStatus := "GUIA_GENERADA",
            newStatus := "ENTREGADO", orderID := 9, productNames := [],
            historySize := 2 } := by
  constructor
  · exact (C1_compareOrderStatus orderOneHist (by simp [orderOneHist])).2.1
      (histEntry "GUIA_GENERADA") rfl
  · have h := (C1_compareOrderStatus orderTwoHist
      (by simp [orderTwoHist])).2.2 (by simp [orderTwoHist])
    simpa [orderTwoHist, histEntry, DropiOrder.GetProductNames] using h

/-! ## Paginator (internal/service/orders.go, FetchAllOrders)

The upstream is abstracted as an oracle `fetch : page number →
Except error (orders of that page)` (one call of `FetchOrders`,
circuit breaker included), and the context as an oracle
`ctxDone : page number → Bool` giving the result of the
non-blocking poll taken at the top of the iteration for that
page.  The loop `for page <= maxPages` is rendered with fuel
equal to the number of remaining pages, so fuel 0 is exactly
the failed loop condition.  The embedding additionally counts
the `FetchOrders` calls made, an observation the claims refer
to. -/

namespace Api

/-- Outcome of `FetchAllOrders`: the returned (orders, error)
pair and the number of upstream page fetches performed. -/
structure FetchAllOutcome (ε : Type) where
  result : Except ε (List DropiOrder)
  calls : Nat
deriving Repr

/-- pageSize constant of FetchAllOrders (orders.go). -/
def pageSize : Nat := 150

/-- maxPages safety cap of FetchAllOrders (orders.go). -/
def maxPages : Nat := 10

/-- Loop body of FetchAllOrders (orders.go): fuel counts the
pages still allowed by the `page <= maxPages` condition. -/
def fetchAllLoop (ctxDone : Nat → Bool) (fetch : Nat → Except ε (List DropiOrder)) :
    Nat → Nat → List DropiOrder → Nat → FetchAllOutcome ε
  | 0, _page, acc, calls => ⟨.ok acc, calls⟩
  | fuel + 1, page, acc, calls =>
    if ctxDone page then
      ⟨.ok acc, calls⟩
    else
      match fetch page with
      | .error e =>
        if page = 1 then ⟨.error e, calls + 1⟩ else ⟨.ok acc, calls + 1⟩
      | .ok orders =>
        if orders.length < pageSize then
          ⟨.ok (acc ++ orders), calls + 1⟩
        else
          fetchAllLoop ctxDone fetch fuel (page + 1) (acc ++ orders) (calls + 1)

/-- FetchAllOrders (orders.go): starts at page 1 with an empty
accumulator and at most `maxPages` iterations. -/
def FetchAllOrders (ctxDone : Nat → Bool)
    (fetch : Nat → Except ε (List DropiOrder)) : FetchAllOutcome ε :=
  fetchAllLoop ctxDone fetch maxPages 1 [] 0

/-- Any error coming out of the pagination loop was raised on
page 1, with the context not yet done there. -/
theorem fetchAllLoop_error {ε : Type} (ctxDone : Nat → Bool)
    (fetch : Nat → Except ε (List DropiOrder)) (e : ε) :
    ∀ fuel page acc calls, 1 ≤ page →
      (fetchAllLoop ctxDone fetch fuel page acc calls).result = .error e →
      page = 1 ∧ ctxDone 1 = false ∧ fetch 1 = .error e := by
  intro fuel
  induction fuel with
  | zero => intro page acc calls _ h; simp [fetchAllLoop] at h
  | succ n ih =>
    intro page acc calls hpage h
    by_cases hc : ctxDone page
    · simp [fetchAllLoop, hc] at h
    · rcases hf : fetch page with e0 | orders
      · by_cases h1 : page = 1
        · subst h1
          simp [fetchAllLoop, hc, hf] at h
          exact ⟨rfl, by simpa using hc, by rw [hf, h]⟩
        · simp [fetchAllLoop, hc, hf, h1] at h
      · by_cases hlt : orders.length < pageSize
        · simp [fetchAllLoop, hc, hf, hlt] at h
        · have := ih (page + 1) (acc ++ orders) (calls + 1) (by omega)
          simp only [fetchAllLoop, hc, hf, hlt, if_false, Bool.false_eq_true,
            if_neg] at h
          have hres := this h
          exact ⟨by omega, hres.2.1, hres.2.2⟩

end Api

/-- A minimal order used to populate synthetic upstream pages. -/
def dummyOrder : DropiOrder :=
  { id := 1, status := "PENDIENTE", orderDetails := [], history := [] }

/-- Upstream oracle serving pages of sizes 150, 150 and 37. -/
def pages150x2x37 : Nat → Except String (List DropiOrder)
  | 1 => .ok (List.replicate 150 dummyOrder)
  | 2 => .ok (List.replicate 150 dummyOrder)
  | 3 => .ok (List.replicate 37 dummyOrder)
  | _ => .ok []

/-- Upstream oracle serving a full page forever. -/
def pagesFull : Nat → Except String (List DropiOrder) :=
  fun _ => .ok (List.replicate 150 dummyOrder)

/-- One unfolding of the pagination loop while the `page <=
maxPages` condition still holds. -/
theorem fetchAllLoop_step {ε : Type} (ctxDone : Nat → Bool)
    (fetch : Nat → Except ε (List DropiOrder))
    (fuel page : Nat) (acc : List DropiOrder) (calls : Nat) (h : fuel ≠ 0) :
    Api.fetchAllLoop ctxDone fetch fuel page acc calls =
      if ctxDone page then
        ⟨.ok acc, calls⟩
      else
        match fetch page with
        | .error e =>
          if page = 1 then ⟨.error e, calls + 1⟩ else ⟨.ok acc, calls + 1⟩
        | .ok orders =>
          if orders.length < Api.pageSize then
            ⟨.ok (acc ++ orders), calls + 1⟩
          else
            Api.fetchAllLoop ctxDone fetch (fuel - 1) (page + 1)
              (acc ++ orders) (calls + 1) := by
  obtain ⟨n, rfl⟩ := Nat.exists_eq_succ_of_ne_zero h
  rfl

/-- Against the always-full upstream the loop always burns all
of its fuel, one full page per unit. -/
theorem fetchAllLoop_pagesFull (fuel page : Nat) (acc : List DropiOrder)
    (calls : Nat) :
    Api.fetchAllLoop (fun _ => false) pagesFull fuel page acc calls =
      ⟨.ok (acc ++ List.replicate (150 * fuel) dummyOrder), calls + fuel⟩ := by
  induction fuel generalizing page acc calls with
  | zero => simp [Api.fetchAllLoop]
  | succ n ih =>
    have hmul : (150 : Nat) * (n + 1) = 150 + 150 * n := by ring
    simp [Api.fetchAllLoop, pagesFull, Api.pageSize, ih, hmul,
      List.replicate_add, List.append_assoc]
    omega

/-- C2: FetchAllOrders propagates a first-page failure as the
run's error with no orders, swallows everything else (an error
can only surface from page 1 with the context live), returns
the accumulation when the context is done, stops on a short
page; on pages [150,150,37] it returns 337 orders in exactly 3
calls, and on endless full pages it stops at the 10-page cap
with 1500 orders and no error. -/
theorem C2_fetchAllOrders {ε : Type} (ctxDone : Nat → Bool)
    (fetch : Nat → Except ε (List DropiOrder)) :
    (∀ e, ctxDone 1 = false → fetch 1 = .error e →
      Api.FetchAllOrders ctxDone fetch = ⟨.error e, 1⟩) ∧
    (∀ e, (Api.FetchAllOrders ctxDone fetch).result = .error e →
      ctxDone 1 = false ∧ fetch 1 = .error e) ∧
    (ctxDone 1 = true → Api.FetchAllOrders ctxDone fetch = ⟨.ok [], 0⟩) ∧
    (∀ l, ctxDone 1 = false → fetch 1 = .ok l → l.length < Api.pageSize →
      Api.FetchAllOrders ctxDone fetch = ⟨.ok l, 1⟩) ∧
    Api.FetchAllOrders (fun _ => false) pages150x2x37 =
      ⟨.ok (List.replicate 337 dummyOrder), 3⟩ ∧
    Api.FetchAllOrders (fun _ => false) pagesFull =
      ⟨.ok (List.replicate 1500 dummyOrder), 10⟩ := by
  refine ⟨?_, ?_, ?_, ?_, ?_, ?_⟩
  · intro e hc hf
    unfold Api.FetchAllOrders
    rw [show Api.maxPages = 9 + 1 from rfl]
    simp [Api.fetchAllLoop, hc, hf]
  · intro e h
    have := Api.fetchAllLoop_error ctxDone fetch e Api.maxPages 1 [] 0
      (by omega) h
    exact ⟨this.2.1, this.2.2⟩
  · intro hc
    unfold Api.FetchAllOrders
    rw [show Api.maxPages = 9 + 1 from rfl]
    simp [Api.fetchAllLoop, hc]
  · intro l hc hf hlt
    unfold Api.FetchAllOrders
    rw [show Api.maxPages = 9 + 1 from rfl]
    simp [Api.fetchAllLoop, hc, hf, hlt]
  · have h337 : List.replicate 150 dummyOrder ++ List.replicate 150 dummyOrder
        ++ List.replicate 37 dummyOrder = List.replicate 337 dummyOrder := by
      rw [List.append_assoc, ← List.replicate_add, ← List.replicate_add]
    unfold Api.FetchAllOrders
    rw [fetchAllLoop_step _ _ _ _ _ _ (by norm_num [Api.maxPages])]
    simp only [pages150x2x37]
    rw [if_neg (by simp), if_neg (by simp [Api.pageSize])]
    rw [fetchAllLoop_step _ _ _ _ _ _ (by norm_num [Api.maxPages])]
    simp only [pages150x2x37]
    rw [if_neg (by simp), if_neg (by simp [Api.pageSize])]
    rw [fetchAllLoop_step _ _ _ _ _ _ (by norm_num [Api.maxPages])]
    simp only [pages150x2x37]
    rw [if_neg (by simp), if_pos (by simp [Api.pageSize])]
    simp only [List.nil_append]
    rw [h337]
  · unfold Api.FetchAllOrders
    rw [fetchAllLoop_pagesFull]
    norm_num [Api.maxPages]

/-- C2 witness: a first-page failure on a concrete oracle
propagates the error after one call. -/
theorem C2_fetchAllOrders_witness :
    Api.FetchAllOrders (fun _ => false)
      (fun _ => (.error "boom" : Except String (List DropiOrder))) =
      ⟨.error "boom", 1⟩ :=
  (C2_fetchAllOrders (fun _ => false)
    (fun _ => (.error "boom" : Except String (List DropiOrder)))).1 "boom" rfl rfl

/-! ## BackoffRetrier (internal/retry/retry.go)

`WithRetry` is embedded with oracles for the operation
(`fn i = none` means attempt `i` succeeded, `some e` that it
failed with `e`), for the jitter drawn at attempt `i`, and for
the two context observation points of the Go code: `ctxDone i`
is the non-blocking poll at the top of iteration `i`, and
`cancelDuringSleep i` tells whether the context fired before
`time.After` during the sleep following attempt `i`.  The
trace records the outcome, every sleep duration in order, and
the number of operation calls. -/

namespace Retry

/-- Outcome of WithRetry: nil error, the context error, or the
last operation error. -/
inductive RetryResult (ε : Type) where
  | success
  | ctxCancelled
  | failed (e : ε)
deriving Repr, DecidableEq

/-- Observable trace of one WithRetry call. -/
structure RetryTrace (ε : Type) where
  result : RetryResult ε
  sleeps : List Nat
  calls : Nat
deriving Repr

/-- Loop of WithRetry (retry.go); fuel counts the iterations
still allowed by `i <= attempts`, and `lastErr` is the `err`
variable carried across iterations (`none` initially). -/
def withRetryLoop (ctxDone cancelDuringSleep : Nat → Bool)
    (attempts baseDelay : Nat) (fn : Nat → Option ε) (jitter : Nat → Nat) :
    Nat → Nat → List Nat → Nat → Option ε → RetryTrace ε
  | 0, _i, sleeps, calls, lastErr =>
    match lastErr with
    | none => ⟨.success, sleeps, calls⟩
    | some e => ⟨.failed e, sleeps, calls⟩
  | fuel + 1, i, sleeps, calls, _lastErr =>
    if ctxDone i then
      ⟨.ctxCancelled, sleeps, calls⟩
    else
      match fn i with
      | none => ⟨.success, sleeps, calls + 1⟩
      | some e =>
        if i = attempts then
          ⟨.failed e, sleeps, calls + 1⟩
        else
          let sleep := baseDelay * 2 ^ (i - 1)
          let totalSleep := sleep + jitter i
          if cancelDuringSleep i then
            ⟨.ctxCancelled, sleeps, calls + 1⟩
          else
            withRetryLoop ctxDone cancelDuringSleep attempts baseDelay fn jitter
              fuel (i + 1) (sleeps ++ [totalSleep]) (calls + 1) (some e)

/-- WithRetry (retry.go): `for i := 1; i <= attempts; i++`. -/
def WithRetry (ctxDone cancelDuringSleep : Nat → Bool)
    (attempts baseDelay : Nat) (fn : Nat → Option ε) (jitter : Nat → Nat) :
    RetryTrace ε :=
  withRetryLoop ctxDone cancelDuringSleep attempts baseDelay fn jitter
    attempts 1 [] 0 none

/-- The loop makes at most one operation call per fuel unit. -/
theorem withRetryLoop_calls {ε : Type} (ctxDone cancelDuringSleep : Nat → Bool)
    (attempts baseDelay : Nat) (fn : Nat → Option ε) (jitter : Nat → Nat) :
    ∀ fuel i sleeps calls lastErr,
      (withRetryLoop ctxDone cancelDuringSleep attempts baseDelay fn jitter
        fuel i sleeps calls lastErr).calls ≤ calls + fuel := by
  intro fuel
  induction fuel with
  | zero =>
    intro i sleeps calls lastErr
    cases lastErr <;> simp [withRetryLoop]
  | succ n ih =>
    intro i sleeps calls lastErr
    by_cases hc : ctxDone i
    · simp [withRetryLoop, hc]
    · rcases hf : fn i with _ | e
      · simp [withRetryLoop, hc, hf]
      · by_cases hl : i = attempts
        · subst hl
          simp [withRetryLoop, hc, hf]
        · by_cases hcs : cancelDuringSleep i
          · simp [withRetryLoop, hc, hf, hl, hcs]
          · have hstep : withRetryLoop ctxDone cancelDuringSleep attempts
                baseDelay fn jitter (n + 1) i sleeps calls lastErr =
                withRetryLoop ctxDone cancelDuringSleep attempts baseDelay fn
                  jitter n (i + 1)
                  (sleeps ++ [baseDelay * 2 ^ (i - 1) + jitter i])
                  (calls + 1) (some e) := by
              simp [withRetryLoop, hc, hf, hl, hcs]
            rw [hstep]
            have := ih (i + 1) (sleeps ++ [baseDelay * 2 ^ (i - 1) + jitter i])
              (calls + 1) (some e)
            omega

/-- While `fuel + i = attempts + 1` the loop sleeps at most
`fuel - 1` more times: there is no sleep after the final
attempt. -/
theorem withRetryLoop_sleeps_len {ε : Type}
    (ctxDone cancelDuringSleep : Nat → Bool)
    (attempts baseDelay : Nat) (fn : Nat → Option ε) (jitter : Nat → Nat) :
    ∀ fuel i sleeps calls lastErr, fuel + i = attempts + 1 →
      (withRetryLoop ctxDone cancelDuringSleep attempts baseDelay fn jitter
        fuel i sleeps calls lastErr).sleeps.length ≤
          sleeps.length + (fuel - 1) := by
  intro fuel
  induction fuel with
  | zero =>
    intro i sleeps calls lastErr _
    cases lastErr <;> simp [withRetryLoop]
  | succ n ih =>
    intro i sleeps calls lastErr hfi
    by_cases hc : ctxDone i
    · simp [withRetryLoop, hc]
    · rcases hf : fn i with _ | e
      · simp [withRetryLoop, hc, hf]
      · by_cases hl : i = attempts
        · subst hl
          simp [withRetryLoop, hc, hf]
        · by_cases hcs : cancelDuringSleep i
          · simp [withRetryLoop, hc, hf, hl, hcs]
          · have hstep : withRetryLoop ctxDone cancelDuringSleep attempts
                baseDelay fn jitter (n + 1) i sleeps calls lastErr =
                withRetryLoop ctxDone cancelDuringSleep attempts baseDelay fn
                  jitter n (i + 1)
                  (sleeps ++ [baseDelay * 2 ^ (i - 1) + jitter i])
                  (calls + 1) (some e) := by
              simp [withRetryLoop, hc, hf, hl, hcs]
            rw [hstep]
            have := ih (i + 1) (sleeps ++ [baseDelay * 2 ^ (i - 1) + jitter i])
              (calls + 1) (some e) (by omega)
            simp only [List.length_append, List.length_cons,
              List.length_nil] at this
            omega

/-- The sleeps recorded by the loop extend the accumulator with
exactly the Go backoff values: the sleep after attempt `i + k`
is `baseDelay * 2 ^ (i + k - 1) + jitter (i + k)`. -/
theorem withRetryLoop_sleeps_shape {ε : Type}
    (ctxDone cancelDuringSleep : Nat → Bool)
    (attempts baseDelay : Nat) (fn : Nat → Option ε) (jitter : Nat → Nat) :
    ∀ fuel i sleeps calls lastErr, 1 ≤ i →
      ∃ m, (withRetryLoop ctxDone cancelDuringSleep attempts baseDelay fn jitter
        fuel i sleeps calls lastErr).sleeps =
          sleeps ++ (List.range m).map
            (fun k => baseDelay * 2 ^ (i - 1 + k) + jitter (i + k)) := by
  intro fuel
  induction fuel with
  | zero =>
    intro i sleeps calls lastErr _
    exact ⟨0, by cases lastErr <;> simp [withRetryLoop]⟩
  | succ n ih =>
    intro i sleeps calls lastErr hi
    by_cases hc : ctxDone i
    · exact ⟨0, by simp [withRetryLoop, hc]⟩
    · rcases hf : fn i with _ | e
      · exact ⟨0, by simp [withRetryLoop, hc, hf]⟩
      · by_cases hl : i = attempts
        · exact ⟨0, by subst hl; simp [withRetryLoop, hc, hf]⟩
        · by_cases hcs : cancelDuringSleep i
          · exact ⟨0, by simp [withRetryLoop, hc, hf, hl, hcs]⟩
          · have hstep : withRetryLoop ctxDone cancelDuringSleep attempts
                baseDelay fn jitter (n + 1) i sleeps calls lastErr =
                withRetryLoop ctxDone cancelDuringSleep attempts baseDelay fn
                  jitter n (i + 1)
                  (sleeps ++ [baseDelay * 2 ^ (i - 1) + jitter i])
                  (calls + 1) (some e) := by
              simp [withRetryLoop, hc, hf, hl, hcs]
            obtain ⟨m, hm⟩ := ih (i + 1)
              (sleeps ++ [baseDelay * 2 ^ (i - 1) + jitter i])
              (calls + 1) (some e) (by omega)
            refine ⟨m + 1, ?_⟩
            rw [hstep, hm, List.append_assoc]
            congr 1
            rw [List.range_succ_eq_map, List.map_cons, List.map_map]
            have hfun : ((fun k => baseDelay * 2 ^ (i + 1 - 1 + k)
                  + jitter (i + 1 + k)) ∘ Nat.succ)
                = fun k => baseDelay * 2 ^ (i + 1 - 1 + Nat.succ k)
                    + jitter (i + 1 + Nat.succ k) := rfl
            simp only [List.singleton_append, List.map_map]
            congr 1
            · simp
              intro a ha
              have h1 : i + a = i - 1 + (a + 1) := by omega
              have h2 : i + 1 + a = i + (a + 1) := by omega
              rw [h1, h2]

/-- If every attempt strictly before `k` fails, attempt `k`
succeeds and no cancellation fires up to `k`, the loop returns
success after exactly `k + 1 - i` more calls with `k - i` more
sleeps. -/
theorem withRetryLoop_success {ε : Type}
    (ctxDone cancelDuringSleep : Nat → Bool)
    (attempts baseDelay : Nat) (fn : Nat → Option ε) (jitter : Nat → Nat)
    (k : Nat) :
    ∀ fuel i sleeps calls lastErr,
      fuel + i = attempts + 1 → 1 ≤ i → i ≤ k → k ≤ attempts →
      fn k = none →
      (∀ j, i ≤ j → j < k → fn j ≠ none) →
      (∀ j, i ≤ j → j ≤ k → ctxDone j = false) →
      (∀ j, i ≤ j → j < k → cancelDuringSleep j = false) →
      (withRetryLoop ctxDone cancelDuringSleep attempts baseDelay fn jitter
        fuel i sleeps calls lastErr).result = .success ∧
      (withRetryLoop ctxDone cancelDuringSleep attempts baseDelay fn jitter
        fuel i sleeps calls lastErr).calls = calls + (k + 1 - i) ∧
      (withRetryLoop ctxDone cancelDuringSleep attempts baseDelay fn jitter
        fuel i sleeps calls lastErr).sleeps.length =
          sleeps.length + (k - i) := by
  intro fuel
  induction fuel with
  | zero =>
    intro i sleeps calls lastErr hfi hi hik hka _ _ _ _
    omega
  | succ n ih =>
    intro i sleeps calls lastErr hfi hi hik hka hk hfail hctx hcsf
    have hc : ctxDone i = false := hctx i le_rfl hik
    by_cases hik0 : i = k
    · subst hik0
      have hstep : withRetryLoop ctxDone cancelDuringSleep attempts baseDelay
          fn jitter (n + 1) i sleeps calls lastErr =
          ⟨.success, sleeps, calls + 1⟩ := by
        simp [withRetryLoop, hc, hk]
      rw [hstep]
      refine ⟨rfl, by simp, by simp⟩
    · have hlt : i < k := lt_of_le_of_ne hik hik0
      obtain ⟨e, he⟩ : ∃ e, fn i = some e := by
        rcases hfe : fn i with _ | e
        · exact absurd hfe (hfail i le_rfl hlt)
        · exact ⟨e, rfl⟩
      have hl : i ≠ attempts := by omega
      have hcsi : cancelDuringSleep i = false := hcsf i le_rfl hlt
      have hstep : withRetryLoop ctxDone cancelDuringSleep attempts baseDelay
          fn jitter (n + 1) i sleeps calls lastErr =
          withRetryLoop ctxDone cancelDuringSleep attempts baseDelay fn jitter
            n (i + 1) (sleeps ++ [baseDelay * 2 ^ (i - 1) + jitter i])
            (calls + 1) (some e) := by
        simp [withRetryLoop, hc, he, hl, hcsi]
      rw [hstep]
      have hIH := ih (i + 1) (sleeps ++ [baseDelay * 2 ^ (i - 1) + jitter i])
        (calls + 1) (some e) (by omega) (by omega) (by omega) hka hk
        (fun j hj1 hj2 => hfail j (by omega) hj2)
        (fun j hj1 hj2 => hctx j (by omega) hj2)
        (fun j hj1 hj2 => hcsf j (by omega) hj2)
      refine ⟨hIH.1, ?_, ?_⟩
      · rw [hIH.2.1]; omega
      · rw [hIH.2.2]; simp; omega

/-- If every attempt up to `attempts` fails and no cancellation
ever fires, the loop exhausts its attempts and returns the
error of the final attempt. -/
theorem withRetryLoop_allFail {ε : Type}
    (ctxDone cancelDuringSleep : Nat → Bool)
    (attempts baseDelay : Nat) (fn : Nat → Option ε) (jitter : Nat → Nat)
    (e : ε) :
    ∀ fuel i sleeps calls lastErr,
      fuel + i = attempts + 1 → 1 ≤ i → i ≤ attempts →
      (∀ j, i ≤ j → j ≤ attempts → fn j ≠ none) →
      fn attempts = some e →
      (∀ j, ctxDone j = false) →
      (∀ j, cancelDuringSleep j = false) →
      (withRetryLoop ctxDone cancelDuringSleep attempts baseDelay fn jitter
        fuel i sleeps calls lastErr).result = .failed e ∧
      (withRetryLoop ctxDone cancelDuringSleep attempts baseDelay fn jitter
        fuel i sleeps calls lastErr).calls = calls + (attempts + 1 - i) := by
  intro fuel
  induction fuel with
  | zero =>
    intro i sleeps calls lastErr hfi hi hia _ _ _ _
    omega
  | succ n ih =>
    intro i sleeps calls lastErr hfi hi hia hfail hlaste hctx hcsf
    have hc : ctxDone i = false := hctx i
    by_cases hl : i = attempts
    · subst hl
      have hstep : withRetryLoop ctxDone cancelDuringSleep i baseDelay
          fn jitter (n + 1) i sleeps calls lastErr =
          ⟨.failed e, sleeps, calls + 1⟩ := by
        simp [withRetryLoop, hc, hlaste]
      rw [hstep]
      exact ⟨rfl, by simp⟩
    · have hlt : i < attempts := lt_of_le_of_ne hia hl
      obtain ⟨e0, he0⟩ : ∃ e0, fn i = some e0 := by
        rcases hfe : fn i with _ | e0
        · exact absurd hfe (hfail i le_rfl hia)
        · exact ⟨e0, rfl⟩
      have hstep : withRetryLoop ctxDone cancelDuringSleep attempts baseDelay
          fn jitter (n + 1) i sleeps calls lastErr =
          withRetryLoop ctxDone cancelDuringSleep attempts baseDelay fn jitter
            n (i + 1) (sleeps ++ [baseDelay * 2 ^ (i - 1) + jitter i])
            (calls + 1) (some e0) := by
        simp [withRetryLoop, hc, he0, hl, hcsf i]
      rw [hstep]
      have hIH := ih (i + 1) (sleeps ++ [baseDelay * 2 ^ (i - 1) + jitter i])
        (calls + 1) (some e0) (by omega) (by omega) (by omega)
        (fun j hj1 hj2 => hfail j (by omega) hj2) hlaste hctx hcsf
      exact ⟨hIH.1, by rw [hIH.2]; omega⟩

/-- If no attempt in range ever succeeds and some cancellation
point (a pre-attempt poll, or the context firing during a
non-final sleep) is hit, the loop reports the context error,
not the operation error. -/
theorem withRetryLoop_cancelled {ε : Type}
    (ctxDone cancelDuringSleep : Nat → Bool)
    (attempts baseDelay : Nat) (fn : Nat → Option ε) (jitter : Nat → Nat) :
    ∀ fuel i sleeps calls lastErr,
      fuel + i = attempts + 1 → 1 ≤ i →
      (∀ j, i ≤ j → j ≤ attempts → fn j ≠ none) →
      (∃ k, i ≤ k ∧ k ≤ attempts ∧
        (ctxDone k = true ∨ (k < attempts ∧ cancelDuringSleep k = true))) →
      (withRetryLoop ctxDone cancelDuringSleep attempts baseDelay fn jitter
        fuel i sleeps calls lastErr).result = .ctxCancelled := by
  intro fuel
  induction fuel with
  | zero =>
    intro i sleeps calls lastErr hfi hi _ hex
    obtain ⟨k, hk1, hk2, _⟩ := hex
    omega
  | succ n ih =>
    intro i sleeps calls lastErr hfi hi hfail hex
    obtain ⟨k, hk1, hk2, hk3⟩ := hex
    by_cases hc : ctxDone i
    · simp [withRetryLoop, hc]
    · obtain ⟨e, he⟩ : ∃ e, fn i = some e := by
        rcases hfe : fn i with _ | e
        · exact absurd hfe (hfail i le_rfl (by omega))
        · exact ⟨e, rfl⟩
      by_cases hl : i = attempts
      · exfalso
        have hki : k = i := by omega
        subst hki
        rcases hk3 with h | h
        · exact hc h
        · omega
      · by_cases hcs : cancelDuringSleep i
        · simp [withRetryLoop, hc, he, hl, hcs]
        · have hkne : k ≠ i := by
            intro hke
            subst hke
            rcases hk3 with h | h
            · exact hc h
            · exact hcs h.2
          have hstep : withRetryLoop ctxDone cancelDuringSleep attempts
              baseDelay fn jitter (n + 1) i sleeps calls lastErr =
              withRetryLoop ctxDone cancelDuringSleep attempts baseDelay fn
                jitter n (i + 1)
                (sleeps ++ [baseDelay * 2 ^ (i - 1) + jitter i])
                (calls + 1) (some e) := by
            simp [withRetryLoop, hc, he, hl, hcs]
          rw [hstep]
          exact ih (i + 1) (sleeps ++ [baseDelay * 2 ^ (i - 1) + jitter i])
            (calls + 1) (some e) (by omega) (by omega)
            (fun j hj1 hj2 => hfail j (by omega) hj2)
            ⟨k, by omega, hk2, hk3⟩

end Retry

/-- C3: WithRetry calls the operation at most `attempts` times,
never sleeps after the final attempt, and every sleep it takes
is exactly `baseDelay * 2 ^ (k - 1) + jitter` for its attempt
`k`, hence inside `[baseDelay * 2 ^ (k - 1),
baseDelay * 2 ^ (k - 1) + baseDelay)`; it returns success at
the first succeeding attempt with one sleep per preceding
failure, returns the last attempt's error when every attempt
fails without cancellation, and returns the context error when
a cancellation point fires while no attempt succeeds. -/
theorem C3_withRetry {ε : Type} (ctxDone cancelDuringSleep : Nat → Bool)
    (attempts baseDelay : Nat) (fn : Nat → Option ε) (jitter : Nat → Nat)
    (hN : 1 ≤ attempts) (_hd : 0 < baseDelay)
    (hj : ∀ i, jitter i < baseDelay) :
    (Retry.WithRetry ctxDone cancelDuringSleep attempts baseDelay fn
      jitter).calls ≤ attempts ∧
    (Retry.WithRetry ctxDone cancelDuringSleep attempts baseDelay fn
      jitter).sleeps.length < attempts ∧
    ((Retry.WithRetry ctxDone cancelDuringSleep attempts baseDelay fn
        jitter).sleeps =
      (List.range (Retry.WithRetry ctxDone cancelDuringSleep attempts baseDelay
        fn jitter).sleeps.length).map
          (fun k => baseDelay * 2 ^ k + jitter (k + 1))) ∧
    (∀ k, baseDelay * 2 ^ k ≤ baseDelay * 2 ^ k + jitter (k + 1) ∧
      baseDelay * 2 ^ k + jitter (k + 1) < baseDelay * 2 ^ k + baseDelay) ∧
    (∀ k, 1 ≤ k → k ≤ attempts → fn k = none →
      (∀ j, 1 ≤ j → j < k → fn j ≠ none) →
      (∀ j, 1 ≤ j → j ≤ k → ctxDone j = false) →
      (∀ j, 1 ≤ j → j < k → cancelDuringSleep j = false) →
      (Retry.WithRetry ctxDone cancelDuringSleep attempts baseDelay fn
        jitter).result = .success ∧
      (Retry.WithRetry ctxDone cancelDuringSleep attempts baseDelay fn
        jitter).calls = k ∧
      (Retry.WithRetry ctxDone cancelDuringSleep attempts baseDelay fn
        jitter).sleeps.length = k - 1) ∧
    (∀ e, (∀ j, 1 ≤ j → j ≤ attempts → fn j ≠ none) →
      fn attempts = some e →
      (∀ j, ctxDone j = false) → (∀ j, cancelDuringSleep j = false) →
      (Retry.WithRetry ctxDone cancelDuringSleep attempts baseDelay fn
        jitter).result = .failed e ∧
      (Retry.WithRetry ctxDone cancelDuringSleep attempts baseDelay fn
        jitter).calls = attempts) ∧
    ((∀ j, 1 ≤ j → j ≤ attempts → fn j ≠ none) →
      (∃ k, 1 ≤ k ∧ k ≤ attempts ∧
        (ctxDone k = true ∨ (k < attempts ∧ cancelDuringSleep k = true))) →
      (Retry.WithRetry ctxDone cancelDuringSleep attempts baseDelay fn
        jitter).result = .ctxCancelled) := by
  refine ⟨?_, ?_, ?_, ?_, ?_, ?_, ?_⟩
  · have := Retry.withRetryLoop_calls ctxDone cancelDuringSleep attempts
      baseDelay fn jitter attempts 1 [] 0 none
    simpa [Retry.WithRetry] using this
  · have := Retry.withRetryLoop_sleeps_len ctxDone cancelDuringSleep attempts
      baseDelay fn jitter attempts 1 [] 0 none rfl
    unfold Retry.WithRetry
    simp only [List.length_nil, Nat.zero_add] at this
    omega
  · obtain ⟨m, hm⟩ := Retry.withRetryLoop_sleeps_shape ctxDone
      cancelDuringSleep attempts baseDelay fn jitter attempts 1 [] 0 none
      le_rfl
    unfold Retry.WithRetry
    rw [hm]
    simp only [List.nil_append, List.length_map, List.length_range]
    apply List.map_congr_left
    intro a _
    have h1 : 1 - 1 + a = a := by omega
    have h2 : 1 + a = a + 1 := by omega
    simp only [h1, h2]
  · intro k
    exact ⟨Nat.le_add_right _ _, by have := hj (k + 1); omega⟩
  · intro k hk1 hk2 hk hfail hctx hcs
    have h := Retry.withRetryLoop_success ctxDone cancelDuringSleep attempts
      baseDelay fn jitter k attempts 1 [] 0 none (by omega) le_rfl hk1 hk2 hk
      (fun j hj1 hj2 => hfail j hj1 hj2)
      (fun j hj1 hj2 => hctx j hj1 hj2)
      (fun j hj1 hj2 => hcs j hj1 hj2)
    unfold Retry.WithRetry
    refine ⟨h.1, ?_, ?_⟩
    · rw [h.2.1]; omega
    · rw [h.2.2]; simp
  · intro e hfail hlast hctx hcs
    have h := Retry.withRetryLoop_allFail ctxDone cancelDuringSleep attempts
      baseDelay fn jitter e attempts 1 [] 0 none (by omega) le_rfl hN
      (fun j hj1 hj2 => hfail j hj1 hj2) hlast hctx hcs
    unfold Retry.WithRetry
    refine ⟨h.1, ?_⟩
    rw [h.2]; omega
  · intro hfail hex
    exact Retry.withRetryLoop_cancelled ctxDone cancelDuringSleep attempts
      baseDelay fn jitter attempts 1 [] 0 none (by omega) le_rfl
      (fun j hj1 hj2 => hfail j hj1 hj2) hex

/-- C3 witness: three attempts with base delay 10, failing on
attempts 1 and 2 and succeeding on attempt 3, return success
after exactly 3 calls and 2 sleeps. -/
theorem C3_withRetry_witness :
    (Retry.WithRetry (fun _ => false) (fun _ => false) 3 10
      (fun i => if i ≤ 2 then some "fail" else none)
      (fun i => i % 10)).result = .success ∧
    (Retry.WithRetry (fun _ => false) (fun _ => false) 3 10
      (fun i => if i ≤ 2 then some "fail" else none)
      (fun i => i % 10)).calls = 3 ∧
    (Retry.WithRetry (fun _ => false) (fun _ => false) 3 10
      (fun i => if i ≤ 2 then some "fail" else none)
      (fun i => i % 10)).sleeps.length = 2 := by
  have h := (C3_withRetry (fun _ => false) (fun _ => false) 3 10
      (fun i => if i ≤ 2 then some "fail" else none) (fun i => i % 10)
      (by norm_num) (by norm_num)
      (fun i => Nat.mod_lt _ (by norm_num))).2.2.2.2.1
  have h3 := h 3 (by norm_num) le_rfl rfl
    (fun j h1 h2 => by interval_cases j <;> simp)
    (fun j _ _ => rfl) (fun j _ _ => rfl)
  exact ⟨h3.1, h3.2.1, h3.2.2⟩

/-! ## PipelineOrchestrator (internal/service/orders.go,
HandleOrderRequest)

The upstream fetch is abstracted by its outcome
(`fetched : Except error orders`, the value returned by
`FetchAllOrders`), the context by `ctxDone i`, the result of
the non-blocking poll taken before the order at index `i`, and
the delivery goroutines by `webhookFail i`, the outcome of the
webhook for the order at index `i` (`none` = delivered,
`some msg` = failed with message `msg`).  Failure messages are
drained in index order; the Go channel gives no ordering
guarantee, and no claim depends on one.  Besides the returned
result, the embedding records which order indices entered
detection and which were dispatched to a webhook goroutine. -/

namespace Service

/-- OrderStatus (orders.go). -/
structure OrderStatus where
  orderID : String
  productNames : List String
  previousState : String
  currentState : String
  changed : Bool
deriving Repr, DecidableEq, Inhabited

/-- ProcessResult (orders.go). -/
structure ProcessResult where
  totalOrders : Nat
  ordersProcessed : Nat
  changesDetected : Nat
  webhooksQueued : Nat
  webhooksPending : Nat
  ordersSkipped : Nat
  errors : List String
  details : List OrderStatus
  partialTimeout : Bool
deriving Repr, DecidableEq, Inhabited

/-- Outcome of the per-order loop: the mutated result, the
indices handed to webhook goroutines, the indices that entered
detection, and whether the loop ended in the partial-timeout
early return. -/
structure LoopOutcome where
  result : ProcessResult
  dispatched : List Nat
  examined : List Nat
  earlyReturn : Bool
deriving Repr, DecidableEq

/-- Detail record built from one comparison result
(orders.go). -/
def mkOrderStatus (cr : Compare.Result) : OrderStatus :=
  { orderID := toString cr.orderID
    productNames := cr.productNames
    previousState := cr.oldStatus
    currentState := cr.newStatus
    changed := cr.changed }

/-- Partial-timeout mutation of the result (orders.go): append
the timeout note and raise the flag. -/
def timeoutStep (r : ProcessResult) : ProcessResult :=
  { r with
    errors := r.errors ++ ["processing cancelled after " ++
      toString r.ordersProcessed ++ " orders: timeout"],
    partialTimeout := true }

/-- Mutations applied when detection fails for an order
(orders.go): counted processed and skipped, error note
recorded, no detail appended. -/
def skipStep (o : DropiOrder) (e : String) (r : ProcessResult) :
    ProcessResult :=
  { r with
    ordersProcessed := r.ordersProcessed + 1,
    ordersSkipped := r.ordersSkipped + 1,
    errors := r.errors ++ ["Order " ++ toString o.id ++ ": " ++ e] }

/-- Mutations applied when detection succeeds (orders.go):
counted processed, detail record appended. -/
def detailStep (cr : Compare.Result) (r : ProcessResult) : ProcessResult :=
  { r with
    ordersProcessed := r.ordersProcessed + 1,
    details := r.details ++ [mkOrderStatus cr] }

/-- Additional mutations when the transition is a change
(orders.go): change and queued counters bumped before the
webhook goroutine is spawned. -/
def changedStep (cr : Compare.Result) (r : ProcessResult) : ProcessResult :=
  { detailStep cr r with
    changesDetected := r.changesDetected + 1,
    webhooksQueued := r.webhooksQueued + 1 }

/-- The per-order loop of HandleOrderRequest (orders.go). -/
def processLoop (ctxDone : Nat → Bool) :
    List DropiOrder → Nat → ProcessResult → LoopOutcome
  | [], _i, r => ⟨r, [], [], false⟩
  | o :: rest, i, r =>
    if ctxDone i then
      ⟨timeoutStep r, [], [], true⟩
    else
      match Compare.CompareOrderStatus (some o) with
      | .error e =>
        let res := processLoop ctxDone rest (i + 1) (skipStep o e r)
        ⟨res.result, res.dispatched, i :: res.examined, res.earlyReturn⟩
      | .ok cr =>
        if cr.changed then
          let res := processLoop ctxDone rest (i + 1) (changedStep cr r)
          ⟨res.result, i :: res.dispatched, i :: res.examined,
            res.earlyReturn⟩
        else
          let res := processLoop ctxDone rest (i + 1) (detailStep cr r)
          ⟨res.result, res.dispatched, i :: res.examined, res.earlyReturn⟩

/-- Drain of the webhook error channel (orders.go): one
`"order <id>: <err>"` note per failed delivery. -/
def collectWebhookErrors (orders : List DropiOrder)
    (webhookFail : Nat → Option String) (dispatched : List Nat)
    (r : ProcessResult) : ProcessResult :=
  { r with errors := r.errors ++ dispatched.filterMap (fun i =>
      (webhookFail i).map (fun msg =>
        "order " ++ toString ((orders.getD i default).id) ++ ": " ++ msg)) }

/-- Full outcome of HandleOrderRequest (orders.go). -/
structure HandleOutcome where
  response : Except String ProcessResult
  dispatched : List Nat
  examined : List Nat
deriving Repr

/-- HandleOrderRequest (orders.go): propagate a fetch error;
otherwise run the loop; on the partial-timeout early return
skip the webhook join and drain; otherwise wait, drain the
failure channel and zero the pending counter. -/
def initResult (orders : List DropiOrder) : ProcessResult :=
  { totalOrders := orders.length, ordersProcessed := 0,
    changesDetected := 0, webhooksQueued := 0, webhooksPending := 0,
    ordersSkipped := 0, errors := [], details := [],
    partialTimeout := false }

def HandleOrderRequest :
    Except String (List DropiOrder) → (Nat → Bool) → (Nat → Option String) →
    HandleOutcome
  | .error e, _ctxDone, _webhookFail => ⟨.error e, [], []⟩
  | .ok orders, ctxDone, webhookFail =>
    if orders.length = 0 then
      ⟨.ok (initResult orders), [], []⟩
    else
      let out := processLoop ctxDone orders 0 (initResult orders)
      if out.earlyReturn then
        ⟨.ok out.result, out.dispatched, out.examined⟩
      else
        let collected :=
          collectWebhookErrors orders webhookFail out.dispatched out.result
        ⟨.ok { collected with webhooksPending := 0 },
          out.dispatched, out.examined⟩

/-- The counter relations maintained by the loop. -/
def counterInv (r : ProcessResult) : Prop :=
  r.ordersProcessed = r.ordersSkipped + r.details.length ∧
  r.changesDetected = r.webhooksQueued ∧
  r.webhooksQueued = (r.details.filter (fun d => d.changed)).length ∧
  r.webhooksPending = 0

/-- The loop preserves the counter relations. -/
theorem processLoop_counterInv (ctxDone : Nat → Bool) :
    ∀ orders i r, counterInv r →
      counterInv (processLoop ctxDone orders i r).result := by
  intro orders
  induction orders with
  | nil => intro i r h; simpa [processLoop] using h
  | cons o rest ih =>
    intro i r h
    obtain ⟨h1, h2, h3, h4⟩ := h
    by_cases hc : ctxDone i
    · simp only [processLoop, hc, if_true]
      exact ⟨h1, h2, h3, h4⟩
    · rcases hcomp : Compare.CompareOrderStatus (some o) with e | cr
      · simp only [processLoop, hc, hcomp, Bool.false_eq_true, if_false]
        apply ih
        refine ⟨?_, h2, h3, h4⟩
        show r.ordersProcessed + 1 = r.ordersSkipped + 1 + r.details.length
        omega
      · by_cases hch : cr.changed
        · simp only [processLoop, hc, hcomp, hch, if_true,
            Bool.false_eq_true, if_false]
          apply ih
          refine ⟨?_, ?_, ?_, h4⟩
          · show r.ordersProcessed + 1 =
              r.ordersSkipped + (r.details ++ [mkOrderStatus cr]).length
            simp
            omega
          · show r.changesDetected + 1 = r.webhooksQueued + 1
            omega
          · show r.webhooksQueued + 1 =
              ((r.details ++ [mkOrderStatus cr]).filter
                (fun d => d.changed)).length
            simp [List.filter_append, mkOrderStatus, hch]
            omega
        · simp only [processLoop, hc, hcomp, hch, Bool.false_eq_true,
            if_false]
          apply ih
          refine ⟨?_, h2, ?_, h4⟩
          · show r.ordersProcessed + 1 =
              r.ordersSkipped + (r.details ++ [mkOrderStatus cr]).length
            simp
            omega
          · show r.webhooksQueued =
              ((r.details ++ [mkOrderStatus cr]).filter
                (fun d => d.changed)).length
            simp [List.filter_append, mkOrderStatus, hch]
            omega

end Service

/-- C5: once the fetch has succeeded HandleOrderRequest answers
with a result and a nil error whatever the detection outcomes,
webhook failures and context polls do; it answers with an
error exactly when the fetch itself failed. -/
theorem C5_handleOrderRequest_errors (ctxDone : Nat → Bool)
    (webhookFail : Nat → Option String) :
    (∀ orders : List DropiOrder, ∃ r,
      (Service.HandleOrderRequest (.ok orders) ctxDone webhookFail).response
        = .ok r) ∧
    (∀ e : String,
      (Service.HandleOrderRequest (.error e) ctxDone webhookFail).response
        = .error e) := by
  constructor
  · intro orders
    simp only [Service.HandleOrderRequest]
    by_cases hlen : orders.length = 0
    · exact ⟨Service.initResult orders, by rw [if_pos hlen]⟩
    · rw [if_neg hlen]
      by_cases he : (Service.processLoop ctxDone orders 0
          (Service.initResult orders)).earlyReturn
      · exact ⟨_, by rw [if_pos he]⟩
      · exact ⟨_, by rw [if_neg he]⟩
  · intro e
    rfl

/-- C10: every result returned by HandleOrderRequest satisfies
the counter invariants: processed = skipped + |details|,
changes detected = webhooks queued = number of changed details,
and no webhook is left pending. -/
theorem C10_processResultInvariants (fetched : Except String (List DropiOrder))
    (ctxDone : Nat → Bool) (webhookFail : Nat → Option String)
    (r : Service.ProcessResult)
    (h : (Service.HandleOrderRequest fetched ctxDone webhookFail).response
      = .ok r) :
    r.ordersProcessed = r.ordersSkipped + r.details.length ∧
    r.changesDetected = r.webhooksQueued ∧
    r.webhooksQueued = (r.details.filter (fun d => d.changed)).length ∧
    r.webhooksPending = 0 := by
  rcases fetched with e | orders
  · simp [Service.HandleOrderRequest] at h
  · have hinv0 : Service.counterInv (Service.initResult orders) := by
      simp [Service.counterInv, Service.initResult]
    simp only [Service.HandleOrderRequest] at h
    by_cases hlen : orders.length = 0
    · rw [if_pos hlen] at h
      simp only [Except.ok.injEq] at h
      subst h
      exact hinv0
    · rw [if_neg hlen] at h
      have hinv := Service.processLoop_counterInv ctxDone orders 0
        (Service.initResult orders) hinv0
      by_cases he : (Service.processLoop ctxDone orders 0
          (Service.initResult orders)).earlyReturn
      · rw [if_pos he] at h
        simp only [Except.ok.injEq] at h
        subst h
        exact hinv
      · rw [if_neg he] at h
        simp only [Except.ok.injEq] at h
        subst h
        obtain ⟨h1, h2, h3, h4⟩ := hinv
        exact ⟨h1, h2, h3, rfl⟩

/-- Expected result of the run over the single first-time
order `orderOneHist`. -/
def resOne : Service.ProcessResult :=
  { totalOrders := 1, ordersProcessed := 1, changesDetected := 1,
    webhooksQueued := 1, webhooksPending := 0, ordersSkipped := 0,
    errors := [], details := [⟨"7", [], "", "GUIA_GENERADA", true⟩],
    partialTimeout := false }

/-- C10 witness: the theorem applied to the run over one
first-time order. -/
theorem C10_processResultInvariants_witness :
    resOne.ordersProcessed = resOne.ordersSkipped + resOne.details.length ∧
    resOne.changesDetected = resOne.webhooksQueued ∧
    resOne.webhooksQueued = (resOne.details.filter (fun d => d.changed)).length ∧
    resOne.webhooksPending = 0 :=
  C10_processResultInvariants (.ok [orderOneHist]) (fun _ => false)
    (fun _ => none) resOne (by rfl)

/-- When the context poll first fires at relative position `k`
(absolute index `i + k`) the loop processes exactly `k` more
orders, flags the partial timeout, makes the timeout note the
final error note, examines exactly the indices `i .. i+k-1`
and dispatches only indices below `i + k`. -/
theorem Service.processLoop_timeout (ctxDone : Nat → Bool) :
    ∀ (orders : List DropiOrder) (k i : Nat) (r : Service.ProcessResult),
      k < orders.length →
      (∀ j, j < k → ctxDone (i + j) = false) →
      ctxDone (i + k) = true →
      (Service.processLoop ctxDone orders i r).earlyReturn = true ∧
      (Service.processLoop ctxDone orders i r).result.partialTimeout = true ∧
      (Service.processLoop ctxDone orders i r).result.ordersProcessed =
        r.ordersProcessed + k ∧
      (Service.processLoop ctxDone orders i r).result.errors.getLast? =
        some ("processing cancelled after " ++
          toString (r.ordersProcessed + k) ++ " orders: timeout") ∧
      (Service.processLoop ctxDone orders i r).examined = List.range' i k ∧
      (∀ x ∈ (Service.processLoop ctxDone orders i r).dispatched,
        x < i + k) := by
  intro orders
  induction orders with
  | nil =>
    intro k i r hk
    simp at hk
  | cons o rest ih =>
    intro k i r hk hprev hdone
    match k with
    | 0 =>
      have hc : ctxDone i = true := by simpa using hdone
      simp [Service.processLoop, hc, Service.timeoutStep]
    | k' + 1 =>
      have hc : ctxDone i = false := by simpa using hprev 0 (by omega)
      have hprev1 : ∀ j, j < k' → ctxDone (i + 1 + j) = false := fun j hj => by
        have := hprev (j + 1) (by omega)
        rwa [show i + (j + 1) = i + 1 + j by omega] at this
      have hdone1 : ctxDone (i + 1 + k') = true := by
        rwa [show i + (k' + 1) = i + 1 + k' by omega] at hdone
      have hk1 : k' < rest.length := by simpa using hk
      have harith : r.ordersProcessed + 1 + k' = r.ordersProcessed + (k' + 1) := by
        omega
      rcases hcomp : Compare.CompareOrderStatus (some o) with e | cr
      · have hrec := ih k' (i + 1) (Service.skipStep o e r) hk1 hprev1 hdone1
        have hp : (Service.skipStep o e r).ordersProcessed =
            r.ordersProcessed + 1 := rfl
        simp only [Service.processLoop, hc, hcomp, Bool.false_eq_true,
          if_false]
        refine ⟨hrec.1, hrec.2.1, ?_, ?_, ?_, ?_⟩
        · rw [hrec.2.2.1, hp]
          omega
        · rw [hrec.2.2.2.1, hp, harith]
        · rw [hrec.2.2.2.2.1, List.range'_succ]
        · intro x hx
          have := hrec.2.2.2.2.2 x hx
          omega
      · by_cases hch : cr.changed
        · have hrec := ih k' (i + 1) (Service.changedStep cr r) hk1 hprev1
            hdone1
          have hp : (Service.changedStep cr r).ordersProcessed =
              r.ordersProcessed + 1 := rfl
          simp only [Service.processLoop, hc, hcomp, hch, if_true,
            Bool.false_eq_true, if_false]
          refine ⟨hrec.1, hrec.2.1, ?_, ?_, ?_, ?_⟩
          · rw [hrec.2.2.1, hp]
            omega
          · rw [hrec.2.2.2.1, hp, harith]
          · rw [hrec.2.2.2.2.1, List.range'_succ]
          · intro x hx
            rcases List.mem_cons.mp hx with hx | hx
            · omega
            · have := hrec.2.2.2.2.2 x hx
              omega
        · have hrec := ih k' (i + 1) (Service.detailStep cr r) hk1 hprev1
            hdone1
          have hp : (Service.detailStep cr r).ordersProcessed =
              r.ordersProcessed + 1 := rfl
          simp only [Service.processLoop, hc, hcomp, hch,
            Bool.false_eq_true, if_false]
          refine ⟨hrec.1, hrec.2.1, ?_, ?_, ?_, ?_⟩
          · rw [hrec.2.2.1, hp]
            omega
          · rw [hrec.2.2.2.1, hp, harith]
          · rw [hrec.2.2.2.2.1, List.range'_succ]
          · intro x hx
            have := hrec.2.2.2.2.2 x hx
            omega

/-- C4: if the context poll first reports done before order
`k + 1` (zero-based index `k`, `k` orders already processed),
HandleOrderRequest returns a nil error and a result with
`ordersProcessed = k`, `partialTimeout = true` and the note
`"processing cancelled after k orders: timeout"` appended last;
only the first `k` orders entered detection and only they may
have been dispatched to a webhook. -/
theorem C4_partialTimeout (orders : List DropiOrder) (ctxDone : Nat → Bool)
    (webhookFail : Nat → Option String) (k : Nat)
    (hprev : ∀ i, i < k → ctxDone i = false) (hk : ctxDone k = true)
    (hlen : k < orders.length) :
    (∃ r, (Service.HandleOrderRequest (.ok orders) ctxDone
        webhookFail).response = .ok r ∧
      r.ordersProcessed = k ∧ r.partialTimeout = true ∧
      r.errors.getLast? = some ("processing cancelled after " ++
        toString k ++ " orders: timeout")) ∧
    (Service.HandleOrderRequest (.ok orders) ctxDone webhookFail).examined =
      List.range k ∧
    (∀ x ∈ (Service.HandleOrderRequest (.ok orders) ctxDone
      webhookFail).dispatched, x < k) := by
  have h := Service.processLoop_timeout ctxDone orders k 0
    (Service.initResult orders) hlen
    (fun j hj => by simpa using hprev j hj) (by simpa using hk)
  have hinit : (Service.initResult orders).ordersProcessed = 0 := rfl
  rw [hinit] at h
  simp only [Nat.zero_add] at h
  simp only [Service.HandleOrderRequest]
  rw [if_neg (by omega), if_pos h.1]
  refine ⟨⟨_, rfl, h.2.2.1, h.2.1, h.2.2.2.1⟩, ?_, ?_⟩
  · show (Service.processLoop ctxDone orders 0
      (Service.initResult orders)).examined = List.range k
    rw [h.2.2.2.2.1]
    exact (List.range_eq_range' k).symm
  · intro x hx
    have := h.2.2.2.2.2 x hx
    omega

/-- C4 witness: two orders with the context done from poll
index 1 on give exactly one examined order. -/
theorem C4_partialTimeout_witness :
    (Service.HandleOrderRequest (.ok [orderOneHist, orderTwoHist])
      (fun i => decide (1 ≤ i)) (fun _ => none)).examined =
      List.range 1 := by
  have h := C4_partialTimeout [orderOneHist, orderTwoHist]
    (fun i => decide (1 ≤ i)) (fun _ => none) 1
    (fun i hi => by interval_cases i; rfl) (by decide) (by norm_num)
  exact h.2.1

/-- Order with an empty status history. -/
def orderEmptyHist : DropiOrder :=
  { id := 11, status := "PENDIENTE", orderDetails := [], history := [] }

/-- C8 counterexample: on an order with empty history the code
returns the error message "history is empty", not the message
"empty history" quoted by the claim. -/
theorem C8_emptyHistory_counterexample :
    Compare.CompareOrderStatus (some orderEmptyHist) =
      .error "history is empty" ∧
    Compare.CompareOrderStatus (some orderEmptyHist) ≠
      .error "empty history" := by
  refine ⟨rfl, ?_⟩
  intro h
  rw [show Compare.CompareOrderStatus (some orderEmptyHist) =
    .error "history is empty" from rfl] at h
  exact absurd (Except.error.inj h) (by decide)

/-- C8 (amended): for every order with empty history the
detector returns the error "history is empty"; the orchestrator
loop then counts the order processed and skipped, appends the
error note, appends no detail record, and continues with the
remaining orders. -/
theorem C8_emptyHistorySkip (o : DropiOrder) (ho : o.history = [])
    (rest : List DropiOrder) (i : Nat) (r : Service.ProcessResult)
    (ctxDone : Nat → Bool) (hc : ctxDone i = false) :
    Compare.CompareOrderStatus (some o) = .error "history is empty" ∧
    Service.skipStep o "history is empty" r =
      { r with
        ordersProcessed := r.ordersProcessed + 1,
        ordersSkipped := r.ordersSkipped + 1,
        errors := r.errors ++
          ["Order " ++ toString o.id ++ ": " ++ "history is empty"] } ∧
    (Service.skipStep o "history is empty" r).details = r.details ∧
    Service.processLoop ctxDone (o :: rest) i r =
      { result := (Service.processLoop ctxDone rest (i + 1)
          (Service.skipStep o "history is empty" r)).result,
        dispatched := (Service.processLoop ctxDone rest (i + 1)
          (Service.skipStep o "history is empty" r)).dispatched,
        examined := i :: (Service.processLoop ctxDone rest (i + 1)
          (Service.skipStep o "history is empty" r)).examined,
        earlyReturn := (Service.processLoop ctxDone rest (i + 1)
          (Service.skipStep o "history is empty" r)).earlyReturn } := by
  have hcomp : Compare.CompareOrderStatus (some o) =
      .error "history is empty" := by
    unfold Compare.CompareOrderStatus
    simp [ho]
  refine ⟨hcomp, by rfl, by rfl, ?_⟩
  simp only [Service.processLoop, hc, hcomp, Bool.false_eq_true, if_false]

/-- C8 witness: the amended theorem applied to a one-order run
over an order with empty history. -/
theorem C8_emptyHistorySkip_witness :
    Service.processLoop (fun _ => false) [orderEmptyHist] 0
        (Service.initResult [orderEmptyHist]) =
      { result := ⟨1, 1, 0, 0, 0, 1, ["Order 11: history is empty"], [],
          false⟩,
        dispatched := [], examined := [0], earlyReturn := false } := by
  have h := (C8_emptyHistorySkip orderEmptyHist rfl [] 0
    (Service.initResult [orderEmptyHist]) (fun _ => false) rfl).2.2.2
  rw [h]
  rfl

/-! ## Error taxonomy (internal/errors/errors.go) and response
classification (doFetchOrders, orders.go)

`AppError` keeps the Go struct's fields; interface-typed
metadata values become the sum `MetaValue`; the wrapped
`Internal` error is carried as its message text.  The HTTP
layer of `doFetchOrders` is abstracted by its observables: the
response status code, the Retry-After header (empty when
absent) and the decoded body (`none` for malformed JSON). -/

namespace AppErrors

/-- Metadata values (`interface\x7b\x7d` in Go). -/
inductive MetaValue where
  | str (s : String)
  | int (n : Int)
deriving Repr, DecidableEq

/-- AppError (errors.go). -/
structure AppError where
  code : Nat
  message : String
  details : String
  internal : Option String
  metadata : List (String × MetaValue)
  retryable : Bool
  statusCode : Nat
deriving Repr, DecidableEq

/-- NewAppError (errors.go). -/
def NewAppError (statusCode code : Nat) (message : String)
    (internal : Option String) : AppError :=
  { code := code, message := message, details := "", internal := internal,
    metadata := [], retryable := false, statusCode := statusCode }

/-- WithDetails (errors.go). -/
def AppError.withDetails (e : AppError) (details : String) : AppError :=
  { e with details := details }

/-- WithMetadata (errors.go). -/
def AppError.withMetadata (e : AppError) (key : String) (value : MetaValue) :
    AppError :=
  { e with metadata := e.metadata ++ [(key, value)] }

/-- WithRetryable (errors.go). -/
def AppError.withRetryable (e : AppError) (retryable : Bool) : AppError :=
  { e with retryable := retryable }

/-- ErrBadRequest (errors.go): 400, code 40000, default
non-retryable. -/
def ErrBadRequest (details : String) (internal : Option String) : AppError :=
  (NewAppError 400 40000 "Invalid request" internal).withDetails details

/-- ErrUnauthorized (errors.go): 401, code 40100,
non-retryable. -/
def ErrUnauthorized (details : String) (internal : Option String) : AppError :=
  ((NewAppError 401 40100 "Authentication failed" internal).withDetails
    details).withRetryable false

/-- ErrForbidden (errors.go): 403, code 40300, non-retryable. -/
def ErrForbidden (details : String) (internal : Option String) : AppError :=
  ((NewAppError 403 40300 "Access denied" internal).withDetails
    details).withRetryable false

/-- ErrNotFound (errors.go): 404, code 40400, default
non-retryable. -/
def ErrNotFound (details : String) (internal : Option String) : AppError :=
  (NewAppError 404 40400 "Resource not found" internal).withDetails details

/-- ErrRateLimited (errors.go): 429, code 42900, retryable. -/
def ErrRateLimited (details : String) (internal : Option String) : AppError :=
  ((NewAppError 429 42900 "Rate limit exceeded" internal).withDetails
    details).withRetryable true

/-- ErrServiceUnavailable (errors.go): 503, code 50300,
retryable. -/
def ErrServiceUnavailable (details : String) (internal : Option String) :
    AppError :=
  ((NewAppError 503 50300 "Service temporarily unavailable"
    internal).withDetails details).withRetryable true

/-- ErrExternalAPI (errors.go): 502 Bad Gateway, code 50200,
carries the upstream status as metadata and is retryable
exactly when that status is a 5xx. -/
def ErrExternalAPI (statusCode : Nat) (details : String)
    (internal : Option String) : AppError :=
  (((NewAppError 502 50200 "External API error" internal).withDetails
    details).withMetadata "external_status_code"
      (.int statusCode)).withRetryable (decide (500 ≤ statusCode))

end AppErrors

namespace Api

/-- Errors escaping doFetchOrders: a structured AppError or a
plain wrapped error (request/decode failures), mirroring that
`IsRetryable` only inspects `*AppError` values. -/
inductive FetchErr where
  | app (e : AppErrors.AppError)
  | plain (msg : String)
deriving Repr, DecidableEq

/-- IsRetryable (errors.go): true only for a retryable
AppError. -/
def IsRetryable : FetchErr → Bool
  | .app e => e.retryable
  | .plain _ => false

/-- Body decoding step of doFetchOrders (orders.go): malformed
JSON is a plain non-AppError error. -/
def decodeBody : Option DropiAPIResponse →
    Except FetchErr (List DropiOrder)
  | none => .error (.plain "invalid JSON from Dropi")
  | some resp => .ok resp.objects

/-- Status-code switch of doFetchOrders (orders.go), applied to
the observables of the HTTP response. -/
def classifyDropiResponse (statusCode : Nat) (retryAfter : String)
    (countrySuffix : String) (body : Option DropiAPIResponse) :
    Except FetchErr (List DropiOrder) :=
  if statusCode = 200 ∨ statusCode = 201 ∨ statusCode = 204 then
    decodeBody body
  else if statusCode = 400 then
    .error (.app ((AppErrors.ErrBadRequest "Invalid request parameters"
      (some ("dropi API returned status " ++
        toString statusCode))).withMetadata "country_suffix"
          (.str countrySuffix)))
  else if statusCode = 401 then
    .error (.app ((AppErrors.ErrUnauthorized
      "Invalid API key or authentication failed"
      (some ("dropi API returned status " ++
        toString statusCode))).withMetadata "country_suffix"
          (.str countrySuffix)))
  else if statusCode = 403 then
    .error (.app ((AppErrors.ErrForbidden "Access denied to Dropi API"
      (some ("dropi API returned status " ++
        toString statusCode))).withMetadata "country_suffix"
          (.str countrySuffix)))
  else if statusCode = 404 then
    .error (.app ((AppErrors.ErrNotFound
      "Orders not found for the specified criteria"
      (some ("dropi API returned status " ++
        toString statusCode))).withMetadata "country_suffix"
          (.str countrySuffix)))
  else if statusCode = 429 then
    let appErr := (AppErrors.ErrRateLimited "Too many requests to Dropi API"
      (some ("dropi API returned status " ++
        toString statusCode))).withMetadata "country_suffix"
          (.str countrySuffix)
    if retryAfter ≠ "" then
      .error (.app (appErr.withMetadata "retry_after" (.str retryAfter)))
    else
      .error (.app appErr)
  else if statusCode = 503 then
    .error (.app ((AppErrors.ErrServiceUnavailable
      "Dropi API is temporarily unavailable"
      (some ("dropi API returned status " ++
        toString statusCode))).withMetadata "country_suffix"
          (.str countrySuffix)))
  else if 500 ≤ statusCode then
    .error (.app ((AppErrors.ErrExternalAPI statusCode
      ("Dropi API returned server error: " ++ toString statusCode)
      (some ("dropi API returned status " ++
        toString statusCode))).withMetadata "country_suffix"
          (.str countrySuffix)))
  else if 400 ≤ statusCode then
    .error (.app ((AppErrors.ErrExternalAPI statusCode
      ("Dropi API returned client error: " ++ toString statusCode)
      (some ("dropi API returned status " ++
        toString statusCode))).withMetadata "country_suffix"
          (.str countrySuffix)))
  else
    decodeBody body

end Api

/-- C7: the gateway classifies upstream responses by status
code: 200/201/204 decode the body (malformed JSON being a
plain, non-retryable decode error), 400/401/403/404 map to
non-retryable AppErrors with the same status, 429 maps to a
retryable rate-limit error carrying any Retry-After value as
metadata, 503 to a retryable service-unavailable error, any
other 5xx to a retryable external-API error and any other 4xx
to a non-retryable external-API error, both carrying the
upstream status as metadata. -/
theorem C7_responseClassification (ra cs : String)
    (body : Option DropiAPIResponse) (resp : DropiAPIResponse) :
    (Api.classifyDropiResponse 200 ra cs (some resp) = .ok resp.objects ∧
     Api.classifyDropiResponse 201 ra cs (some resp) = .ok resp.objects ∧
     Api.classifyDropiResponse 204 ra cs (some resp) = .ok resp.objects) ∧
    (∀ s, (s = 200 ∨ s = 201 ∨ s = 204) →
      Api.classifyDropiResponse s ra cs none =
        .error (.plain "invalid JSON from Dropi") ∧
      Api.IsRetryable (.plain "invalid JSON from Dropi") = false) ∧
    (∃ e, Api.classifyDropiResponse 400 ra cs body = .error (.app e) ∧
      e.statusCode = 400 ∧ e.retryable = false) ∧
    (∃ e, Api.classifyDropiResponse 401 ra cs body = .error (.app e) ∧
      e.statusCode = 401 ∧ e.retryable = false) ∧
    (∃ e, Api.classifyDropiResponse 403 ra cs body = .error (.app e) ∧
      e.statusCode = 403 ∧ e.retryable = false) ∧
    (∃ e, Api.classifyDropiResponse 404 ra cs body = .error (.app e) ∧
      e.statusCode = 404 ∧ e.retryable = false) ∧
    (∃ e, Api.classifyDropiResponse 429 ra cs body = .error (.app e) ∧
      e.statusCode = 429 ∧ e.retryable = true ∧
      (ra ≠ "" → ("retry_after", AppErrors.MetaValue.str ra) ∈ e.metadata)) ∧
    (∃ e, Api.classifyDropiResponse 503 ra cs body = .error (.app e) ∧
      e.statusCode = 503 ∧ e.retryable = true) ∧
    (∀ s, 500 ≤ s → s ≠ 503 → ∃ e,
      Api.classifyDropiResponse s ra cs body = .error (.app e) ∧
      e.retryable = true ∧
      ("external_status_code", AppErrors.MetaValue.int (s : Int)) ∈
        e.metadata) ∧
    (∀ s, 400 ≤ s → s < 500 → s ≠ 400 → s ≠ 401 → s ≠ 403 → s ≠ 404 →
      s ≠ 429 → ∃ e,
      Api.classifyDropiResponse s ra cs body = .error (.app e) ∧
      e.retryable = false ∧
      ("external_status_code", AppErrors.MetaValue.int (s : Int)) ∈
        e.metadata) := by
  refine ⟨⟨rfl, rfl, rfl⟩, ?_, ?_, ?_, ?_, ?_, ?_, ?_, ?_, ?_⟩
  · rintro s (rfl | rfl | rfl) <;> exact ⟨rfl, rfl⟩
  · exact ⟨_, rfl, rfl, rfl⟩
  · exact ⟨_, rfl, rfl, rfl⟩
  · exact ⟨_, rfl, rfl, rfl⟩
  · exact ⟨_, rfl, rfl, rfl⟩
  · by_cases hra : ra = ""
    · refine ⟨(AppErrors.ErrRateLimited "Too many requests to Dropi API"
        (some ("dropi API returned status " ++
          toString (429 : Nat)))).withMetadata "country_suffix" (.str cs),
        ?_, ?_, ?_, ?_⟩
      · unfold Api.classifyDropiResponse
        rw [if_neg (by omega), if_neg (by omega), if_neg (by omega),
          if_neg (by omega), if_neg (by omega), if_pos rfl]
        simp [hra]
      · rfl
      · rfl
      · exact fun hcon => absurd hra hcon
    · refine ⟨((AppErrors.ErrRateLimited "Too many requests to Dropi API"
        (some ("dropi API returned status " ++
          toString (429 : Nat)))).withMetadata "country_suffix"
            (.str cs)).withMetadata "retry_after" (.str ra),
        ?_, ?_, ?_, fun _ => ?_⟩
      · unfold Api.classifyDropiResponse
        rw [if_neg (by omega), if_neg (by omega), if_neg (by omega),
          if_neg (by omega), if_neg (by omega), if_pos rfl]
        simp [hra]
      · rfl
      · rfl
      · simp [AppErrors.AppError.withMetadata]
  · exact ⟨_, rfl, rfl, rfl⟩
  · intro s hs hs503
    refine ⟨(AppErrors.ErrExternalAPI s
      ("Dropi API returned server error: " ++ toString s)
      (some ("dropi API returned status " ++ toString s))).withMetadata
        "country_suffix" (.str cs), ?_, ?_, ?_⟩
    · unfold Api.classifyDropiResponse
      rw [if_neg (by omega), if_neg (by omega), if_neg (by omega),
        if_neg (by omega), if_neg (by omega), if_neg (by omega),
        if_neg hs503, if_pos hs]
    · simp [AppErrors.ErrExternalAPI, AppErrors.NewAppError,
        AppErrors.AppError.withDetails, AppErrors.AppError.withMetadata,
        AppErrors.AppError.withRetryable]
      omega
    · simp [AppErrors.ErrExternalAPI, AppErrors.NewAppError,
        AppErrors.AppError.withDetails, AppErrors.AppError.withMetadata,
        AppErrors.AppError.withRetryable]
  · intro s hs hs5 h400 h401 h403 h404 h429
    refine ⟨(AppErrors.ErrExternalAPI s
      ("Dropi API returned client error: " ++ toString s)
      (some ("dropi API returned status " ++ toString s))).withMetadata
        "country_suffix" (.str cs), ?_, ?_, ?_⟩
    · unfold Api.classifyDropiResponse
      rw [if_neg (by omega), if_neg h400, if_neg h401, if_neg h403,
        if_neg h404, if_neg h429, if_neg (by omega), if_neg (by omega),
        if_pos hs]
    · simp [AppErrors.ErrExternalAPI, AppErrors.NewAppError,
        AppErrors.AppError.withDetails, AppErrors.AppError.withMetadata,
        AppErrors.AppError.withRetryable]
      omega
    · simp [AppErrors.ErrExternalAPI, AppErrors.NewAppError,
        AppErrors.AppError.withDetails, AppErrors.AppError.withMetadata,
        AppErrors.AppError.withRetryable]

/-- C7 witness: the theorem applied to a rate-limited response
with a Retry-After header and to a success body. -/
theorem C7_responseClassification_witness :
    Api.classifyDropiResponse 200 "30" "co"
      (some { objects := [], count := 0, next := "" }) = .ok [] ∧
    (∃ e, Api.classifyDropiResponse 429 "30" "co" none = .error (.app e) ∧
      e.statusCode = 429 ∧ e.retryable = true ∧
      ("retry_after", AppErrors.MetaValue.str "30") ∈ e.metadata) := by
  have h := C7_responseClassification "30" "co" none
    { objects := [], count := 0, next := "" }
  refine ⟨h.1.1, ?_⟩
  obtain ⟨e, he, h1, h2, h3⟩ := h.2.2.2.2.2.2.1
  exact ⟨e, he, h1, h2, h3 (by decide)⟩

/-! ## Query construction of doFetchOrders (orders.go and the
hand-built revision)

The current `doFetchOrders` builds the query through
`url.Values.Encode()`, which percent-escapes each key and value
with Go's query-component escaping — a space becomes `+` — and
joins the pairs sorted by key.  The alternative revision builds
the raw query string by hand with the spaces pre-encoded as
`%20`.  Both are embedded below over ASCII strings, byte for
byte as Go escapes them. -/

namespace Api

/-- Uppercase hexadecimal digit, as in Go's escape table. -/
def hexDigit (n : Nat) : Char :=
  if n < 10 then Char.ofNat (48 + n) else Char.ofNat (55 + n)

/-- Go `url.QueryEscape` on one character: alphanumerics and
`-_.~` kept, space to `+`, anything else percent-escaped. -/
def queryEscapeChar (c : Char) : String :=
  let n := c.toNat
  if (97 ≤ n ∧ n ≤ 122) ∨ (65 ≤ n ∧ n ≤ 90) ∨ (48 ≤ n ∧ n ≤ 57)
      ∨ n = 45 ∨ n = 95 ∨ n = 46 ∨ n = 126 then
    String.singleton c
  else if n = 32 then
    "+"
  else
    String.singleton '%' ++ String.singleton (hexDigit (n / 16)) ++
      String.singleton (hexDigit (n % 16))

/-- Go `url.QueryEscape` over a string. -/
def QueryEscape (s : String) : String :=
  String.join (s.toList.map queryEscapeChar)

/-- Lexicographic byte order on ASCII strings (Go's string
order used by the key sort of `Encode`). -/
def charListLt : List Char → List Char → Bool
  | [], [] => false
  | [], _ :: _ => true
  | _ :: _, [] => false
  | a :: as, b :: bs =>
    if a.toNat < b.toNat then true
    else if b.toNat < a.toNat then false
    else charListLt as bs

def strLt (a b : String) : Bool :=
  charListLt a.toList b.toList

/-- Insertion into a key-sorted association list. -/
def insertSorted (kv : String × String) :
    List (String × String) → List (String × String)
  | [] => [kv]
  | x :: xs =>
    if strLt x.1 kv.1 then x :: insertSorted kv xs else kv :: x :: xs

/-- Key-sort of an association list (Go's `Encode` iterates the
map keys in sorted order). -/
def sortByKey : List (String × String) → List (String × String)
  | [] => []
  | x :: xs => insertSorted x (sortByKey xs)

/-- Go `url.Values.Encode()`: keys sorted, each `k=v` pair
query-escaped and joined with `&`. -/
def urlValuesEncode (params : List (String × String)) : String :=
  String.intercalate "&" ((sortByKey params).map (fun kv =>
    QueryEscape kv.1 ++ "=" ++ QueryEscape kv.2))

/-- Query parameters set by doFetchOrders (orders.go): `from`,
`result_number`, the fixed `filter_date_by` literal, and
`until` when a non-empty until-date is supplied. -/
def buildQueryParams (date : String) (limit : Nat) (dateUtil : String) :
    List (String × String) :=
  let base := [("from", date), ("result_number", toString limit),
    ("filter_date_by", "FECHA DE CAMBIO DE ESTATUS")]
  if dateUtil ≠ "" then base ++ [("until", dateUtil)] else base

/-- RawQuery produced by the current doFetchOrders (orders.go):
`url.Values.Encode()` over the parameters above. -/
def doFetchOrdersRawQuery (date : String) (limit : Nat)
    (dateUtil : String) : String :=
  urlValuesEncode (buildQueryParams date limit dateUtil)

/-- RawQuery produced by the hand-built revision of
doFetchOrders: spaces pre-encoded as `%20`. -/
def doFetchOrdersRawQueryHandBuilt (date : String) (limit : Nat)
    (dateUtil : String) : String :=
  let queryParams := "from=" ++ date ++ "&result_number=" ++ toString limit
    ++ "&filter_date_by=" ++ "FECHA%20DE%20CAMBIO%20DE%20ESTATUS"
  if dateUtil ≠ "" then queryParams ++ "&until=" ++ dateUtil else queryParams

end Api

/-- C9: the `url.Values.Encode()` path of doFetchOrders does
set `from`, `result_number`, `filter_date_by` and, when given,
`until`, but transmits the embedded spaces of the
`filter_date_by` literal as `+`, not `%20`; only the hand-built
revision transmits `%20`. -/
theorem C9_filterDateByEncoding :
    Api.doFetchOrdersRawQuery "2024-01-01" 150 "" =
      "filter_date_by=FECHA+DE+CAMBIO+DE+ESTATUS&from=2024-01-01&result_number=150" ∧
    Api.doFetchOrdersRawQuery "2024-01-01" 150 "2024-01-02" =
      "filter_date_by=FECHA+DE+CAMBIO+DE+ESTATUS&from=2024-01-01&result_number=150&until=2024-01-02" ∧
    Api.doFetchOrdersRawQueryHandBuilt "2024-01-01" 150 "" =
      "from=2024-01-01&result_number=150&filter_date_by=FECHA%20DE%20CAMBIO%20DE%20ESTATUS" ∧
    Api.QueryEscape "FECHA DE CAMBIO DE ESTATUS" =
      "FECHA+DE+CAMBIO+DE+ESTATUS" ∧
    Api.QueryEscape "FECHA DE CAMBIO DE ESTATUS" ≠
      "FECHA%20DE%20CAMBIO%20DE%20ESTATUS" := by
  refine ⟨?_, ?_, ?_, ?_, ?_⟩ <;> decide
